import Mathlib

/-!
Verification of a Bluetooth Classic logging application.

A shallow embedding of the application's state handling and data
processing: the log context (`src/context/LogContext.tsx`), the device
filtering, connection sequencing and timeout racing of
`src/screens/MainScreen.tsx`, the timestamp heuristics and Excel export
of `src/screens/LogsScreen.tsx`, and the Storage Access Framework file
module (`SafFileModule.kt`). Pure functions are translated directly;
stateful callbacks become explicit state-passing step functions;
platform effects (alerts, file writes, promise settlement) are recorded
as explicit effect values.
-/

namespace BCA

/-! ### Log context (`src/context/LogContext.tsx`)

`LogProvider` holds `isLogging : boolean` and `logData : LogEntry[]`
and exposes four updaters.  The `timestamp` of an appended entry is
`new Date().toISOString()`; the clock reading is passed in explicitly.
-/

/-- A `{timestamp, data}` pair (`LogEntry` in `LogContext.tsx`). -/
structure LogEntry where
  timestamp : String
  data : String
deriving DecidableEq, Repr

/-- The state held by `LogProvider`: `isLogging` and `logData`. -/
structure LogState where
  isLogging : Bool
  logData : List LogEntry
deriving DecidableEq, Repr

/-- `startLogging = () => setIsLogging(true)`. -/
def startLogging (s : LogState) : LogState :=
  { s with isLogging := true }

/-- `stopLogging = () => setIsLogging(false)`. -/
def stopLogging (s : LogState) : LogState :=
  { s with isLogging := false }

/-- `appendLog = (data) => setLogData(prev => [...prev, { timestamp: new Date().toISOString(), data }])`;
`ts` is the clock reading `new Date().toISOString()`. -/
def appendLog (s : LogState) (ts data : String) : LogState :=
  { s with logData := s.logData ++ [⟨ts, data⟩] }

/-- `clearLogs = () => setLogData([])`. -/
def clearLogs (s : LogState) : LogState :=
  { s with logData := [] }

/-- The events that drive the log state: the three buttons of
`LogsScreen` and the arrival of a byte-stream payload from the
connected device (the `onDataReceived` subscription installed in
`MainScreen.connectToDevice`, lines 281-284). -/
inductive LogEvent where
  | startLogging
  | stopLogging
  | clearLogs
  | dataReceived (ts data : String)
deriving DecidableEq, Repr

/-- One step of the log state.  The `onDataReceived` handler of
`MainScreen.tsx` runs `if (appendLogRef.current) appendLogRef.current(event.data)`
with no check of the logging flag, so `dataReceived` appends
unconditionally. -/
def logStep (s : LogState) : LogEvent → LogState
  | .startLogging => startLogging s
  | .stopLogging => stopLogging s
  | .clearLogs => clearLogs s
  | .dataReceived ts data => appendLog s ts data

/-- Reachability of a log state from the initial
`{isLogging := false, logData := []}` under any event sequence. -/
def logReachable (s : LogState) : Prop :=
  ∃ evs : List LogEvent, evs.foldl logStep ⟨false, []⟩ = s

/-! ### Paired-device filtering (`MainScreen.fetchPairedDevices`, lines 202-207) -/

/-- A device as `react-native-bluetooth-classic` reports it: `name` may
be absent (JS `undefined`), `address` and `bonded` are always present. -/
structure BTDevice where
  name : Option String
  address : String
  bonded : Bool
deriving DecidableEq, Repr

/-- JS `haystack.includes(needle)`: `needle` occurs contiguously in
`haystack` (character lists; `"".includes("")` is `true`). -/
def containsSub (hay needle : List Char) : Bool :=
  match hay with
  | [] => needle.isEmpty
  | _ :: t => needle.isPrefixOf hay || containsSub t needle

/-- JS `a.includes(b)` on strings. -/
def strIncludes (hay needle : String) : Bool :=
  containsSub hay.toList needle.toList

/-- The `dummyNames` block-list of `fetchPairedDevices`. -/
def dummyNames : List String :=
  ["Unknown Device", "Unknown", "Bluetooth Device", "BT Device",
   "Device", "Phone", "Mobile", "Android", "Test Device", "Dummy Device"]

/-- The generic address fragments checked by `fetchPairedDevices`. -/
def genericAddressParts : List String :=
  ["00:00:00", "FF:FF:FF", "AA:AA:AA", "BB:BB:BB"]

/-- `dummyNames.some(dummy => device.name && device.name.toLowerCase().includes(dummy.toLowerCase()))`. -/
def isDummyName (d : BTDevice) : Bool :=
  dummyNames.any fun dummy =>
    match d.name with
    | some n => strIncludes n.toLower dummy.toLower
    | none => false

/-- `device.address && (device.address.includes('00:00:00') || ...)`:
an empty (falsy) address never counts as generic. -/
def isGenericAddress (d : BTDevice) : Bool :=
  !d.address.isEmpty && genericAddressParts.any fun p => strIncludes d.address p

/-- The filter body of `fetchPairedDevices`:
`device.bonded && !isDummyName && !isGenericAddress`. -/
def keepPairedDevice (d : BTDevice) : Bool :=
  d.bonded && !isDummyName d && !isGenericAddress d

/-- `systemDevices.filter(...)` producing `realPairedDevices`. -/
def filterPairedDevices (ds : List BTDevice) : List BTDevice :=
  ds.filter keepPairedDevice

/-! ### Timeout racing of platform Bluetooth calls (`MainScreen.tsx`)

Each `await`ed call into the platform Bluetooth binding, with the
timeout it is `Promise.race`d against (`none` when the call is awaited
bare).  Transcribed from `MainScreen.tsx` (and the two `device.write`
calls of `LogsScreen.tsx`).
-/

/-- An awaited platform Bluetooth call site: which API, and the
millisecond timeout it is raced against, if any. -/
structure BTCall where
  site : String
  timeoutMs : Option Nat
deriving DecidableEq, Repr

/-- Every awaited platform Bluetooth call of `MainScreen.tsx` and
`LogsScreen.tsx`, in source order, with its `Promise.race` timeout. -/
def bluetoothCallSites : List BTCall :=
  [⟨"MainScreen.appStateListener.cancelDiscovery", none⟩,
   ⟨"MainScreen.initializeApp.getBondedDevices", none⟩,
   ⟨"MainScreen.checkBluetoothEnabled.isBluetoothEnabled", none⟩,
   ⟨"MainScreen.fetchPairedDevices.getBondedDevices", some 10000⟩,
   ⟨"MainScreen.scanForDevices.cancelDiscovery", none⟩,
   ⟨"MainScreen.scanForDevices.isBluetoothEnabled", none⟩,
   ⟨"MainScreen.scanForDevices.startDiscovery", some 30000⟩,
   ⟨"MainScreen.stopScanning.cancelDiscovery", none⟩,
   ⟨"MainScreen.connectToDevice.pairDevice", some 15000⟩,
   ⟨"MainScreen.connectToDevice.connect", some 20000⟩,
   ⟨"MainScreen.disconnectDevice.disconnect", none⟩,
   ⟨"MainScreen.removePairedDevice.unpairDevice", none⟩,
   ⟨"MainScreen.removePairedDevice.startDiscovery", none⟩,
   ⟨"LogsScreen.startLogging.write", none⟩,
   ⟨"LogsScreen.clearDeviceLogs.write", none⟩]

/-- When a call that would settle after `d` ms is `Promise.race`d
against a timeout of `t` ms, the race settles at `min d t`; a bare
await settles only when the call does. -/
def raceSettleTime (timeoutMs : Option Nat) (d : Nat) : Nat :=
  match timeoutMs with
  | some t => min d t
  | none => d

/-! ### Launch sequence (`MainScreen.initializeApp`, lines 86-113)

The effectful launch flow as a pure function of its environment: the
permission outcome, the stored last address, the system bond list, and
how the platform pairing/connect promises would settle.  `none` for a
promise result models a rejection (a throw or a timeout).
-/

/-- Environment of one `connectToDevice` run. -/
structure ConnectEnv where
  permissionsGranted : Bool
  pairResult : Option Bool
  connectResult : Option Bool
deriving DecidableEq, Repr

/-- What one `connectToDevice` run did: how many times it called
`pairDevice` and `device.connect()`, and whether it ended connected. -/
structure ConnectOutcome where
  pairCalls : Nat
  connectCalls : Nat
  connected : Bool
  status : String
deriving DecidableEq, Repr

/-- The tail of `connectToDevice` (lines 273-293): one
`device.connect()` raced against a 20 s timeout, its failure caught. -/
def connectAttempt (env : ConnectEnv) (pairCalls : Nat) : ConnectOutcome :=
  match env.connectResult with
  | some true => ⟨pairCalls, 1, true, "Connected!"⟩
  | some false => ⟨pairCalls, 1, false, "Failed to connect"⟩
  | none => ⟨pairCalls, 1, false, "Connection error"⟩

/-- `connectToDevice` (lines 253-294): permissions, then pairing when
the device is not bonded (its failure returns early), then a single
connection attempt. -/
def connectToDevice (env : ConnectEnv) (device : BTDevice) : ConnectOutcome :=
  if !env.permissionsGranted then
    ⟨0, 0, false, "Bluetooth permissions are required to connect."⟩
  else if !device.bonded then
    match env.pairResult with
    | some true => connectAttempt env 1
    | some false => ⟨1, 0, false, "Pairing failed. Please pair the device manually in Bluetooth settings."⟩
    | none => ⟨1, 0, false, "Pairing failed"⟩
  else
    connectAttempt env 0

/-- Environment of `initializeApp`. -/
structure InitEnv where
  permissionsGranted : Bool
  lastConnectedDevice : Option String
  bondedDevices : List BTDevice
  pairResult : Option Bool
  connectResult : Option Bool
deriving DecidableEq, Repr

/-- What the launch flow did. -/
structure InitResult where
  pairCalls : Nat
  connectCalls : Nat
  connected : Bool
  isAppReady : Bool
  status : String
deriving DecidableEq, Repr

/-- Lines 94-98: a stored, non-empty (truthy) last address looked up in
the freshly fetched bond list by `paired.find(d => d.address === lastAddress)`. -/
def lastDeviceLookup (env : InitEnv) : Option BTDevice :=
  match env.lastConnectedDevice with
  | none => none
  | some addr =>
      if addr = "" then none
      else env.bondedDevices.find? fun d => d.address == addr

/-- `initializeApp` (lines 86-113): after permissions are granted, at
most one best-effort `connectToDevice` on the stored last device (its
failure swallowed by the inner `try`), then `setIsAppReady(true)` in
every branch. -/
def initializeApp (env : InitEnv) : InitResult :=
  if env.permissionsGranted then
    match lastDeviceLookup env with
    | some device =>
        let r := connectToDevice ⟨env.permissionsGranted, env.pairResult, env.connectResult⟩ device
        ⟨r.pairCalls, r.connectCalls, r.connected, true,
         "App ready. Tap \"Scan for Devices\" to start."⟩
    | none =>
        ⟨0, 0, false, true, "App ready. Tap \"Scan for Devices\" to start."⟩
  else
    ⟨0, 0, false, true, "Permissions required. Please grant Bluetooth and Location permissions."⟩

/-! ### JS `Date` formatting (platform library, as used by `LogsScreen.tsx`)

The UTC civil-calendar conversion behind `getUTCFullYear`/`getUTCMonth`/
`getUTCDate`/`getUTCDay`/`getUTCHours`/`getUTCMinutes`/`getUTCSeconds`
and behind `toLocaleDateString('en-US', ...)` /
`toLocaleTimeString('en-US', ...)`.  The locale functions format in the
device's local time zone; that zone's offset from UTC, in seconds, is
passed in as `tz`.
-/

/-- Year, month (1-12) and day of month for a count of days since
1970-01-01 (proleptic Gregorian). -/
def civilFromDays (days : Nat) : Nat × Nat × Nat :=
  let z := days + 719468
  let era := z / 146097
  let doe := z % 146097
  let yoe := (doe - doe / 1460 + doe / 36524 - doe / 146096) / 365
  let y := yoe + era * 400
  let doy := doe - (365 * yoe + yoe / 4 - yoe / 100)
  let mp := (5 * doy + 2) / 153
  let d := doy - (153 * mp + 2) / 5 + 1
  let m := if mp < 10 then mp + 3 else mp - 9
  (if m ≤ 2 then y + 1 else y, m, d)

/-- The calendar fields a JS `Date` exposes; `weekday` is 0 = Sunday. -/
structure DateParts where
  year : Nat
  month : Nat
  day : Nat
  weekday : Nat
  hour : Nat
  minute : Nat
  second : Nat
deriving DecidableEq, Repr

/-- The fields of `new Date(secs * 1000)` read with the `getUTC*`
accessors. -/
def dateFromEpochSeconds (secs : Nat) : DateParts :=
  let days := secs / 86400
  let tod := secs % 86400
  let (y, m, d) := civilFromDays days
  ⟨y, m, d, (days + 4) % 7, tod / 3600, tod % 3600 / 60, tod % 60⟩

/-- The `pad` helper of `formatEpoch`: `x < 10 ? '0' + x : '' + x`. -/
def pad2 (n : Nat) : String :=
  if n < 10 then "0" ++ toString n else toString n

/-- The `days` array of `formatEpoch`. -/
def shortDayNames : List String := ["Sun", "Mon", "Tue", "Wed", "Thu", "Fri", "Sat"]

/-- The `months` array of `formatEpoch`. -/
def shortMonthNames : List String :=
  ["Jan", "Feb", "Mar", "Apr", "May", "Jun", "Jul", "Aug", "Sep", "Oct", "Nov", "Dec"]

/-- en-US long weekday names, as `toLocaleDateString('en-US', { weekday: 'long' })` uses. -/
def longDayNames : List String :=
  ["Sunday", "Monday", "Tuesday", "Wednesday", "Thursday", "Friday", "Saturday"]

/-- en-US long month names. -/
def longMonthNames : List String :=
  ["January", "February", "March", "April", "May", "June", "July",
   "August", "September", "October", "November", "December"]

/-! ### Epoch heuristics of the live log view (`LogsScreen.tsx`, lines 20-41) -/

/-- `isEpoch`: seconds (10 digits) or millis (13 digits) between the
years 2000 and 2100; a value over `2_000_000_000` is read as
milliseconds. -/
def isEpoch (n : Nat) : Bool :=
  let sec := if n > 2000000000 then n / 1000 else n
  decide (946684800 ≤ sec) && decide (sec ≤ 4102444800)

/-- `formatEpoch`: `'${days[getUTCDay()]} ${months[getUTCMonth()]}
${pad(getUTCDate())} ${pad(h)}:${pad(m)}:${pad(s)} ${getUTCFullYear()}'`
of `new Date(n > 2_000_000_000 ? n : n * 1000)`. -/
def formatEpoch (n : Nat) : String :=
  let ms := if n > 2000000000 then n else n * 1000
  let p := dateFromEpochSeconds (ms / 1000)
  shortDayNames.getD p.weekday "" ++ " " ++ shortMonthNames.getD (p.month - 1) "" ++ " "
    ++ pad2 p.day ++ " " ++ pad2 p.hour ++ ":" ++ pad2 p.minute ++ ":" ++ pad2 p.second
    ++ " " ++ toString p.year

/-- A JS word character, as the `\b` of `/\b\d{10,13}\b/g` sees it:
`[A-Za-z0-9_]`. -/
def isWordChar (c : Char) : Bool :=
  c.isAlphanum || c = '_'

/-- The numeric value of a string of decimal digits (JS `Number(m)` on
a digit-only match; exact, the matches have at most 13 digits). -/
def digitsToNat (l : List Char) : Nat :=
  l.foldl (fun a c => a * 10 + (c.toNat - 48)) 0

/-- There is a word boundary between a word character and this rest of
the line: the rest is empty or starts with a non-word character. -/
def noWordAhead : List Char → Bool
  | [] => true
  | c :: _ => !isWordChar c

/-- The scan of `line.replace(/\b\d{10,13}\b/g, ...)`: `prev` records
whether the previous character of the original line is a word character
(no `\b` can sit between two word characters).  A maximal digit run of
10-13 digits flanked by word boundaries whose value passes `isEpoch` is
replaced by `formatEpoch`; everything else is copied unchanged, and
matching continues on the original text after the match. -/
def convertGo (prev : Bool) : List Char → List Char
  | [] => []
  | c :: cs =>
    if c.isDigit && !prev then
      let run := c :: cs.takeWhile Char.isDigit
      let rest := cs.dropWhile Char.isDigit
      let n := digitsToNat run
      (if 10 ≤ run.length && run.length ≤ 13 && noWordAhead rest && isEpoch n then
        (formatEpoch n).toList
      else run) ++ convertGo true rest
    else
      c :: convertGo (isWordChar c) cs
termination_by l => l.length
decreasing_by
  · exact Nat.lt_succ_of_le (List.dropWhile_sublist _).length_le
  · simp

/-- `convertLineTimestamps` (lines 35-41). -/
def convertLineTimestamps (line : String) : String :=
  String.mk (convertGo false line.toList)

/-- Whether a replaceable token starts exactly at this position of the
line: the previous character is no word character, the maximal digit
run here has 10-13 digits followed by a word boundary, and its value
passes `isEpoch`. -/
def startsWithEpochToken (prev : Bool) (l : List Char) : Bool :=
  if prev then false
  else
    let run := l.takeWhile Char.isDigit
    let rest := l.dropWhile Char.isDigit
    10 ≤ run.length && run.length ≤ 13 && noWordAhead rest && isEpoch (digitsToNat run)

/-- Whether the replace of `convertLineTimestamps` fires anywhere in
this rest of the line: a replaceable token starts at some position.
`prev` as in `convertGo`; a line on which this is `false` contains no
replaceable token. -/
def hasEpochToken (prev : Bool) : List Char → Bool
  | [] => false
  | c :: cs => startsWithEpochToken prev (c :: cs) || hasEpochToken (isWordChar c) cs

/-! ### Excel export parsing (`LogsScreen.exportToExcel`, lines 43-117) -/

/-- `/^\s*D:/i.test(item.data)`: optional leading whitespace then `D:`
or `d:`. -/
def isDLine (s : String) : Bool :=
  match s.toList.dropWhile Char.isWhitespace with
  | c :: ':' :: _ => c = 'D' || c = 'd'
  | _ => false

/-- `item.data.replace(/^\s*D:\s*/, '')`: case-sensitive, so only a
capital `D:` prefix (with surrounding whitespace) is stripped. -/
def stripDLine (s : String) : String :=
  match s.toList.dropWhile Char.isWhitespace with
  | 'D' :: ':' :: r => String.mk (r.dropWhile Char.isWhitespace)
  | _ => s

/-- The `( \d+ ),( \d+ )#` tail of the PPM pattern, starting right
after the first comma: both groups are maximal nonempty digit runs. -/
def matchPPMTail (l : List Char) : Option (String × String) :=
  let g2 := l.takeWhile Char.isDigit
  match g2, l.dropWhile Char.isDigit with
  | _ :: _, ',' :: r3 =>
      let g3 := r3.takeWhile Char.isDigit
      match g3, r3.dropWhile Char.isDigit with
      | _ :: _, '#' :: _ => some (String.mk g2, String.mk g3)
      | _, _ => none
  | _, _ => none

/-- `/(\d{10,13}),(\d+),(\d+)#/` anchored at the head of `l`: the
greedy `\d{10,13}` with backtracking succeeds exactly when the maximal
digit run here has 10-13 digits and a comma follows. -/
def matchPPMAt (l : List Char) : Option (String × String × String) :=
  let run := l.takeWhile Char.isDigit
  if 10 ≤ run.length && run.length ≤ 13 then
    match l.dropWhile Char.isDigit with
    | ',' :: r1 => (matchPPMTail r1).map fun g => (String.mk run, g.1, g.2)
    | _ => none
  else none

/-- `dataLine.match(/(\d{10,13}),(\d+),(\d+)#/)`: the leftmost match,
found by trying the pattern at each position in turn. -/
def ppmSearch : List Char → Option (String × String × String)
  | [] => none
  | c :: cs =>
    match matchPPMAt (c :: cs) with
    | some g => some g
    | none => ppmSearch cs

/-- `toLocaleDateString('en-US', { weekday: 'long', year: 'numeric',
month: 'long', day: 'numeric' })` of `new Date(epoch * 1000)`:
"Wednesday, January 1, 2020", in the device zone at offset `tz`
seconds. -/
def dateStrEnUS (tz : Int) (epochSeconds : Nat) : String :=
  let p := dateFromEpochSeconds ((epochSeconds : Int) + tz).toNat
  longDayNames.getD p.weekday "" ++ ", " ++ longMonthNames.getD (p.month - 1) "" ++ " "
    ++ toString p.day ++ ", " ++ toString p.year

/-- `toLocaleTimeString('en-US', { hour12: false, hour: '2-digit',
minute: '2-digit', second: '2-digit' })`: "HH:MM:SS" on the 0-23 hour
cycle, in the device zone at offset `tz` seconds. -/
def timeStrEnUS (tz : Int) (epochSeconds : Nat) : String :=
  let p := dateFromEpochSeconds ((epochSeconds : Int) + tz).toNat
  pad2 p.hour ++ ":" ++ pad2 p.minute ++ ":" ++ pad2 p.second

/-- The fixed header row of the worksheet. -/
def headerRow : List String :=
  ["Serial Number", "Date", "Time", "Outlet PPM", "Inlet PPM"]

/-- The loop body of `filtered.forEach` (lines 58-98): strip the `D:`
prefix, search for the PPM pattern, and push a five-cell row; with no
match the date, time and PPM cells stay empty strings. -/
def exportRow (tz : Int) (serial : Nat) (data : String) : List String :=
  let dataLine := stripDLine data
  match ppmSearch dataLine.toList with
  | some (g1, g2, g3) =>
      let epoch := digitsToNat g1.toList
      [toString serial, dateStrEnUS tz epoch, timeStrEnUS tz epoch, g2, g3]
  | none => [toString serial, "", "", "", ""]

/-- The `forEach` over `filtered` with the mutable `serialNumber`
counter starting at `serial`. -/
def exportRowsAux (tz : Int) (serial : Nat) : List LogEntry → List (List String)
  | [] => []
  | e :: es => exportRow tz serial e.data :: exportRowsAux tz (serial + 1) es

/-- `excelData` as handed to `XLSX.utils.aoa_to_sheet`: the header row,
then one row per entry of `logData.filter(item => /^\s*D:/i.test(item.data))`,
serial numbers from 1. -/
def excelData (tz : Int) (logs : List LogEntry) : List (List String) :=
  headerRow :: exportRowsAux tz 1 (logs.filter fun e => isDLine e.data)

/-- `'bluetooth_logs_' + new Date().toISOString().slice(0, 19).replace(/:/g, '-') + '.xlsx'`;
`nowIso` is the clock reading `toISOString()`. -/
def xlsxFileName (nowIso : String) : String :=
  "bluetooth_logs_"
    ++ String.mk ((nowIso.toList.take 19).map fun c => if c = ':' then '-' else c)
    ++ ".xlsx"

/-- Environment of one `exportToExcel` run: the platform branch taken
and how the platform save settles.  `safResult` is the
`SafFileModule.saveFileWithDialog` promise (`.ok uri` resolved,
`.error e` rejected); `iosWriteOk` covers the `RNFS.writeFile` /
`Share.open` path. -/
structure ExportEnv where
  platformAndroid : Bool
  safResult : Except String String
  iosWriteOk : Bool
deriving Repr

/-- What one `exportToExcel` run did: alerts and toasts shown, the
workbook rows when a workbook was generated, and the file written (its
name and the rows it serializes) with the SAF URI when one was chosen. -/
structure ExportResult where
  alerts : List (String × String)
  toasts : List String
  workbook : Option (List (List String))
  savedFile : Option (String × List (List String))
  savedUri : Option String
deriving Repr

/-- `exportToExcel` (lines 43-117): the empty-data guard, then workbook
generation, then the Android SAF dialog or the iOS document write, all
failures landing in the `catch` alert. -/
def exportToExcel (tz : Int) (nowIso : String) (env : ExportEnv)
    (logData : List LogEntry) : ExportResult :=
  if logData.isEmpty then
    ⟨[("No Data", "No log data to export.")], [], none, none, none⟩
  else
    let rows := excelData tz logData
    let fileName := xlsxFileName nowIso
    if env.platformAndroid then
      match env.safResult with
      | .ok uri => ⟨[], ["Log file saved!"], some rows, some (fileName, rows), some uri⟩
      | .error e => ⟨[("Error", "Failed to generate Excel file: " ++ e)], [], some rows, none, none⟩
    else
      if env.iosWriteOk then
        ⟨[("Success", "Log file saved to device.")], [], some rows, some (fileName, rows), none⟩
      else
        ⟨[("Error", "Failed to generate Excel file")], [], some rows, none, none⟩

/-! ### SAF file module (`SafFileModule.kt`)

The module's three nullable fields become a state record; promise
settlement, the create-document dialog and the output-stream write
become explicit effects.  `android.util.Base64.decode(s, DEFAULT)` is
the platform's standard-alphabet base64 decoder.
-/

/-- The value of one base64 alphabet character. -/
def b64Val (c : Char) : Option Nat :=
  if 'A' ≤ c ∧ c ≤ 'Z' then some (c.toNat - 65)
  else if 'a' ≤ c ∧ c ≤ 'z' then some (c.toNat - 97 + 26)
  else if '0' ≤ c ∧ c ≤ '9' then some (c.toNat - 48 + 52)
  else if c = '+' then some 62
  else if c = '/' then some 63
  else none

/-- Bytes from a stream of 6-bit base64 values. -/
def b64Bytes : List Nat → List Nat
  | a :: b :: c :: d :: rest =>
      (a * 4 + b / 16) :: (b % 16 * 16 + c / 4) :: (c % 4 * 64 + d) :: b64Bytes rest
  | [a, b, c] => [a * 4 + b / 16, b % 16 * 16 + c / 4]
  | [a, b] => [a * 4 + b / 16]
  | _ => []

/-- `Base64.decode(base64, Base64.DEFAULT)`: non-alphabet characters
(padding, line breaks) are skipped, then 6-bit groups are packed into
bytes. -/
def base64Decode (s : String) : List Nat :=
  b64Bytes (s.toList.filterMap b64Val)

/-- The module's mutable fields: `pendingPromise`, `pendingFileName`,
`pendingBase64` (promises are named by an identifier). -/
structure SafState where
  pendingPromise : Option Nat
  pendingFileName : Option String
  pendingBase64 : Option String
deriving DecidableEq, Repr

/-- The fields all start `null`. -/
def initialSafState : SafState := ⟨none, none, none⟩

/-- How a React Native promise settles. -/
inductive SafSettle where
  | resolve (value : String)
  | reject (code message : String)
deriving DecidableEq, Repr

/-- The observable actions of the module. -/
inductive SafEffect where
  | startDialog (fileName : String)
  | write (uri : String) (bytes : List Nat)
  | settle (promiseId : Nat) (result : SafSettle)
deriving DecidableEq, Repr

/-- Whether an effect settles a promise (used to count settlements). -/
def isSettleEffect : SafEffect → Bool
  | .settle _ _ => true
  | _ => false

/-- `android.app.Activity.RESULT_OK`. -/
def RESULT_OK : Int := -1

/-- The `Intent` handed to `onActivityResult`; `uri` is `data.data`. -/
structure SafIntent where
  uri : Option String
deriving DecidableEq, Repr

/-- How the try block of `onActivityResult` plays out:
`tryThrows = some msg` models `openOutputStream`/`Base64.decode`/
`write`/`close` throwing; `streamAvailable = false` models
`openOutputStream` returning `null` (then `out?.write` and `out?.close`
are skipped). -/
structure SafWriteEnv where
  tryThrows : Option String
  streamAvailable : Bool
deriving DecidableEq, Repr

/-- `saveFileWithDialog` (lines 21-38): reject `NO_ACTIVITY` with no
state change when there is no current activity; otherwise store the
three pending fields and launch the `ACTION_CREATE_DOCUMENT` dialog. -/
def saveFileWithDialog (st : SafState) (hasActivity : Bool)
    (fileName base64 : String) (promiseId : Nat) : SafState × List SafEffect :=
  if !hasActivity then
    (st, [.settle promiseId (.reject "NO_ACTIVITY" "No current activity")])
  else
    (⟨some promiseId, some fileName, some base64⟩, [.startDialog fileName])

/-- `onActivityResult` (lines 41-66): only request code 2025 with a
pending promise is handled; the promise is taken out of `pendingPromise`
before it is settled, and all three fields are cleared. -/
def onActivityResult (st : SafState) (env : SafWriteEnv) (requestCode : Nat)
    (resultCode : Int) (data : Option SafIntent) : SafState × List SafEffect :=
  if requestCode = 2025 then
    match st.pendingPromise with
    | none => (st, [])
    | some pid =>
        let effects :=
          match data with
          | some intent =>
              if resultCode = RESULT_OK then
                match intent.uri, st.pendingBase64 with
                | some uri, some b64 =>
                    (match env.tryThrows with
                     | some msg => [.settle pid (.reject "WRITE_ERROR" msg)]
                     | none =>
                         if env.streamAvailable then
                           [.write uri (base64Decode b64), .settle pid (.resolve uri)]
                         else
                           [.settle pid (.resolve uri)])
                | _, _ => [.settle pid (.reject "NO_URI" "No URI returned")]
              else
                [.settle pid (.reject "CANCELLED" "User cancelled")]
          | none => [.settle pid (.reject "CANCELLED" "User cancelled")]
        (initialSafState, effects)
  else
    (st, [])

/-! ## Supporting lemmas -/

lemma takeWhile_append_all {α : Type} {p : α → Bool} {l₁ : List α} (l₂ : List α)
    (h : ∀ a ∈ l₁, p a = true) :
    (l₁ ++ l₂).takeWhile p = l₁ ++ l₂.takeWhile p := by
  induction l₁ with
  | nil => simp
  | cons a t ih =>
      have ha := h a (List.mem_cons_self a t)
      simp only [List.cons_append, List.takeWhile_cons, ha, if_true]
      simpa using ih fun x hx => h x (List.mem_cons_of_mem a hx)

lemma dropWhile_append_all {α : Type} {p : α → Bool} {l₁ : List α} (l₂ : List α)
    (h : ∀ a ∈ l₁, p a = true) :
    (l₁ ++ l₂).dropWhile p = l₂.dropWhile p := by
  induction l₁ with
  | nil => simp
  | cons a t ih =>
      have ha := h a (List.mem_cons_self a t)
      simp only [List.cons_append, List.dropWhile_cons, ha, if_true]
      exact ih fun x hx => h x (List.mem_cons_of_mem a hx)

lemma takeWhile_append_exists {α : Type} {p : α → Bool} {l₁ : List α} (l₂ : List α)
    (h : ∃ a ∈ l₁, p a = false) :
    (l₁ ++ l₂).takeWhile p = l₁.takeWhile p := by
  induction l₁ with
  | nil => simp at h
  | cons a t ih =>
      by_cases ha : p a = true
      · simp only [List.cons_append, List.takeWhile_cons, ha, if_true]
        obtain ⟨x, hx, hpx⟩ := h
        rcases List.mem_cons.mp hx with rfl | hxt
        · simp [ha] at hpx
        · simpa using ih ⟨x, hxt, hpx⟩
      · simp only [Bool.not_eq_true] at ha
        simp [List.takeWhile_cons, ha]

lemma dropWhile_append_exists {α : Type} {p : α → Bool} {l₁ : List α} (l₂ : List α)
    (h : ∃ a ∈ l₁, p a = false) :
    (l₁ ++ l₂).dropWhile p = l₁.dropWhile p ++ l₂ := by
  induction l₁ with
  | nil => simp at h
  | cons a t ih =>
      by_cases ha : p a = true
      · simp only [List.cons_append, List.dropWhile_cons, ha, if_true]
        obtain ⟨x, hx, hpx⟩ := h
        rcases List.mem_cons.mp hx with rfl | hxt
        · simp [ha] at hpx
        · simpa using ih ⟨x, hxt, hpx⟩
      · simp only [Bool.not_eq_true] at ha
        simp [List.dropWhile_cons, ha]

lemma dropWhile_ne_nil_of_exists {α : Type} {p : α → Bool} {l : List α}
    (h : ∃ a ∈ l, p a = false) : l.dropWhile p ≠ [] := by
  induction l with
  | nil => simp at h
  | cons a t ih =>
      by_cases ha : p a = true
      · simp only [List.dropWhile_cons, ha, if_true]
        obtain ⟨x, hx, hpx⟩ := h
        rcases List.mem_cons.mp hx with rfl | hxt
        · simp [ha] at hpx
        · exact ih ⟨x, hxt, hpx⟩
      · simp only [Bool.not_eq_true] at ha
        simp [List.dropWhile_cons, ha]

lemma getLast?_dropWhile {α : Type} {p : α → Bool} {l : List α}
    (h : l.dropWhile p ≠ []) : (l.dropWhile p).getLast? = l.getLast? := by
  obtain ⟨t, ht⟩ := List.dropWhile_suffix (l := l) p
  conv_rhs => rw [← ht]
  rw [List.getLast?_append_of_ne_nil _ h]

lemma notWord_notDigit {c : Char} (h : isWordChar c = false) : c.isDigit = false := by
  simp only [isWordChar, Char.isAlphanum, Bool.or_eq_false_iff] at h
  exact h.1.2

lemma noWordAhead_append {l r : List Char} (h : l ≠ []) :
    noWordAhead (l ++ r) = noWordAhead l := by
  cases l with
  | nil => exact absurd rfl h
  | cons c cs => rfl

lemma convertGo_nil (prev : Bool) : convertGo prev [] = [] := by
  rw [convertGo]

/-- When the rest of the line starts at a word boundary (or is empty),
the scanner's memory of the previous character is irrelevant. -/
lemma convertGo_prev_irrel {l : List Char} (h : noWordAhead l = true) (prev₁ prev₂ : Bool) :
    convertGo prev₁ l = convertGo prev₂ l := by
  cases l with
  | nil => rw [convertGo, convertGo]
  | cons c cs =>
      have hw : isWordChar c = false := by
        simpa [noWordAhead] using h
      have hd : c.isDigit = false := notWord_notDigit hw
      rw [convertGo, convertGo, hd]
      simp

/-- Splitting the scan at a non-word character: a prefix ending in a
non-word character is scanned independently of what follows it. -/
lemma convertGo_append :
    ∀ (n : Nat) (p : List Char), p.length ≤ n → p ≠ [] →
      (∀ c, p.getLast? = some c → isWordChar c = false) →
      ∀ (prev : Bool) (r : List Char),
        convertGo prev (p ++ r) = convertGo prev p ++ convertGo false r := by
  intro n
  induction n with
  | zero =>
      intro p hlen hne _ _ _
      cases p with
      | nil => exact absurd rfl hne
      | cons c cs => simp at hlen
  | succ n ih =>
      intro p hlen hne hlast prev r
      cases p with
      | nil => exact absurd rfl hne
      | cons c cs =>
        cases cs with
        | nil =>
            have hw : isWordChar c = false := hlast c rfl
            have hd : c.isDigit = false := notWord_notDigit hw
            rw [List.cons_append, List.nil_append, convertGo, convertGo, hd, hw]
            simp [convertGo_nil]
        | cons c₂ cs₂ =>
            have hlast' : ∀ x, (c₂ :: cs₂).getLast? = some x → isWordChar x = false := by
              intro x hx
              exact hlast x (by rw [List.getLast?_cons_cons]; exact hx)
            have hlen' : (c₂ :: cs₂).length ≤ n := by
              simpa using Nat.le_of_succ_le_succ hlen
            by_cases hcond : (c.isDigit && !prev) = true
            · -- the scanner enters a digit run at `c`
              cases hgl : (c₂ :: cs₂).getLast? with
              | none => simp at hgl
              | some x =>
                have hxd : x.isDigit = false := notWord_notDigit (hlast' x hgl)
                have hex : ∃ a ∈ (c₂ :: cs₂), Char.isDigit a = false :=
                  ⟨x, List.mem_of_getLast?_eq_some hgl, hxd⟩
                have hrne : (c₂ :: cs₂).dropWhile Char.isDigit ≠ [] :=
                  dropWhile_ne_nil_of_exists hex
                have hrlen : ((c₂ :: cs₂).dropWhile Char.isDigit).length ≤ n :=
                  le_trans (List.dropWhile_sublist _).length_le hlen'
                have hrlast : ∀ y, ((c₂ :: cs₂).dropWhile Char.isDigit).getLast? = some y →
                    isWordChar y = false := by
                  intro y hy
                  rw [getLast?_dropWhile hrne] at hy
                  exact hlast' y hy
                have hrec := ih _ hrlen hrne hrlast true r
                rw [List.cons_append, convertGo, convertGo]
                simp only [hcond, if_true,
                  takeWhile_append_exists r hex, dropWhile_append_exists r hex,
                  noWordAhead_append hrne, hrec, List.append_assoc]
            · rw [List.cons_append, convertGo, convertGo]
              simp only [hcond, if_false]
              rw [ih (c₂ :: cs₂) hlen' (by simp) hlast' (isWordChar c) r]
              simp
/-- A maximal 10-13 digit run at the head of the line, followed by a
word boundary, is replaced according to `isEpoch`, and scanning
continues independently on the rest. -/
lemma convertGo_token {t s : List Char}
    (ht : ∀ c ∈ t, c.isDigit = true) (hne : t ≠ [])
    (hlen10 : 10 ≤ t.length) (hlen13 : t.length ≤ 13)
    (hs : noWordAhead s = true) :
    convertGo false (t ++ s) =
      (if isEpoch (digitsToNat t) = true then (formatEpoch (digitsToNat t)).toList else t)
        ++ convertGo false s := by
  cases t with
  | nil => exact absurd rfl hne
  | cons c cs =>
      have hc : c.isDigit = true := ht c (List.mem_cons_self c cs)
      have hcs : ∀ a ∈ cs, Char.isDigit a = true :=
        fun a ha => ht a (List.mem_cons_of_mem c ha)
      have htk : s.takeWhile Char.isDigit = [] := by
        cases s with
        | nil => rfl
        | cons x xs =>
            have hx : isWordChar x = false := by simpa [noWordAhead] using hs
            simp [List.takeWhile_cons, notWord_notDigit hx]
      have hdp : s.dropWhile Char.isDigit = s := by
        cases s with
        | nil => rfl
        | cons x xs =>
            have hx : isWordChar x = false := by simpa [noWordAhead] using hs
            simp [List.dropWhile_cons, notWord_notDigit hx]
      rw [List.cons_append, convertGo]
      simp only [hc, Bool.not_false, Bool.and_self, if_true,
        takeWhile_append_all s hcs, dropWhile_append_all s hcs, htk, hdp,
        List.append_nil]
      rw [decide_eq_true hlen10, decide_eq_true hlen13, hs]
      simp only [Bool.true_and]
      rw [convertGo_prev_irrel hs true false]

/-! ## Claim theorems -/

/-- Scanning a run of word characters from a word-character position
never starts a token: the occurrence check passes straight over it. -/
lemma hasEpochToken_wordRun :
    ∀ (u v : List Char), (∀ c ∈ u, isWordChar c = true) →
      hasEpochToken true (u ++ v) = hasEpochToken true v := by
  intro u
  induction u with
  | nil => intro v _; rfl
  | cons a us ih =>
      intro v hu
      rw [List.cons_append, hasEpochToken]
      have ha : isWordChar a = true := hu a (List.mem_cons_self a us)
      have hstart : startsWithEpochToken true (a :: (us ++ v)) = false := rfl
      rw [ha, hstart, Bool.false_or]
      exact ih v fun c hc => hu c (List.mem_cons_of_mem a hc)

/-- A line with no replaceable token is scanned to itself: every
character is copied unchanged. -/
lemma convertGo_id :
    ∀ (n : Nat) (l : List Char), l.length ≤ n → ∀ prev : Bool,
      hasEpochToken prev l = false → convertGo prev l = l := by
  intro n
  induction n with
  | zero =>
      intro l hlen prev _
      cases l with
      | nil => exact convertGo_nil prev
      | cons c cs => simp at hlen
  | succ n ih =>
      intro l hlen prev h
      cases l with
      | nil => exact convertGo_nil prev
      | cons c cs =>
          rw [hasEpochToken] at h
          obtain ⟨hstart, htail⟩ := Bool.or_eq_false_iff.mp h
          rw [convertGo]
          by_cases hcond : (c.isDigit && !prev) = true
          · simp only [hcond, if_true]
            have hcond' := hcond
            rw [Bool.and_eq_true] at hcond'
            obtain ⟨hdig, hprev⟩ := hcond'
            have hprev' : prev = false := by
              cases prev
              · rfl
              · simp at hprev
            rw [hprev'] at hstart
            simp only [startsWithEpochToken, Bool.false_eq_true, if_false,
              List.takeWhile_cons_of_pos hdig, List.dropWhile_cons_of_pos hdig] at hstart
            rw [hstart]
            simp only [Bool.false_eq_true, if_false]
            have hw : isWordChar c = true := by
              simp [isWordChar, Char.isAlphanum, hdig]
            rw [hw] at htail
            have hsplit : hasEpochToken true (cs.dropWhile Char.isDigit)
                = hasEpochToken true cs := by
              conv_rhs => rw [← List.takeWhile_append_dropWhile (p := Char.isDigit) (l := cs)]
              refine (hasEpochToken_wordRun _ _ ?_).symm
              intro x hx
              have hxd : x.isDigit = true := List.mem_takeWhile_imp hx
              simp [isWordChar, Char.isAlphanum, hxd]
            rw [← hsplit] at htail
            have hrec := ih (cs.dropWhile Char.isDigit)
              (le_trans (List.dropWhile_sublist _).length_le (Nat.le_of_succ_le_succ hlen))
              true htail
            rw [hrec, List.cons_append, List.takeWhile_append_dropWhile]
          · simp only [hcond, Bool.false_eq_true, if_false]
            have hrec := ih cs (Nat.le_of_succ_le_succ hlen) (isWordChar c) htail
            rw [hrec]

/-- Splitting a line at a standalone 10-13 digit token: the token is
replaced according to `isEpoch` and each side is scanned independently.
The token is standalone: the prefix is empty or ends in a non-word
character, and the suffix is empty or starts with one. -/
lemma convertLineTimestamps_split
    (p t s : List Char)
    (hp : p.getLast?.all (fun c => !isWordChar c) = true)
    (ht : t.all Char.isDigit = true)
    (hlen10 : 10 ≤ t.length) (hlen13 : t.length ≤ 13)
    (hs : noWordAhead s = true) :
    (convertLineTimestamps (String.mk (p ++ t ++ s))).toList =
      (convertLineTimestamps (String.mk p)).toList
        ++ (if isEpoch (digitsToNat t) = true then (formatEpoch (digitsToNat t)).toList
            else t)
        ++ (convertLineTimestamps (String.mk s)).toList := by
  have ht' : ∀ c ∈ t, c.isDigit = true := by
    intro c hc
    exact List.all_eq_true.mp ht c hc
  have htne : t ≠ [] := by
    intro h
    rw [h] at hlen10
    simp at hlen10
  have hmid := convertGo_token ht' htne hlen10 hlen13 hs
  show convertGo false (p ++ t ++ s) =
    convertGo false p
      ++ (if isEpoch (digitsToNat t) = true then (formatEpoch (digitsToNat t)).toList else t)
      ++ convertGo false s
  cases p with
  | nil =>
      simp only [List.nil_append]
      rw [hmid, convertGo_nil]
      rw [List.nil_append]
  | cons c cs =>
      have hlastw : ∀ x, (c :: cs).getLast? = some x → isWordChar x = false := by
        intro x hx
        rw [hx] at hp
        simpa using hp
      rw [List.append_assoc,
        convertGo_append (c :: cs).length (c :: cs) le_rfl (by simp) hlastw false (t ++ s),
        hmid, ← List.append_assoc]

/-- C2: `convertLineTimestamps` (stated on the character lists of the
strings): a line containing no standalone 10-13 digit token in the
plausible epoch range is returned with every character unchanged; a
line splitting at such a standalone token has the token replaced by the
formatted UTC timestamp when its value passes the year-2000-to-2100
heuristic (read as seconds, or as milliseconds above `2_000_000_000`)
and kept verbatim otherwise, the sides scanned independently; and when
the sides hold no further replaceable token they are themselves
unchanged, character for character.  A token is standalone when the
prefix is empty or ends in a non-word character and the suffix is empty
or starts with one. -/
theorem convertLineTimestamps_replaces_standalone_epoch_tokens :
    (∀ l : List Char, hasEpochToken false l = false →
      (convertLineTimestamps (String.mk l)).toList = l) ∧
    (∀ p t s : List Char,
      p.getLast?.all (fun c => !isWordChar c) = true →
      t.all Char.isDigit = true →
      10 ≤ t.length → t.length ≤ 13 →
      noWordAhead s = true →
      (convertLineTimestamps (String.mk (p ++ t ++ s))).toList =
        (convertLineTimestamps (String.mk p)).toList
          ++ (if isEpoch (digitsToNat t) = true
              then (formatEpoch (digitsToNat t)).toList else t)
          ++ (convertLineTimestamps (String.mk s)).toList) ∧
    (∀ p t s : List Char,
      hasEpochToken false p = false →
      p.getLast?.all (fun c => !isWordChar c) = true →
      t.all Char.isDigit = true →
      10 ≤ t.length → t.length ≤ 13 →
      noWordAhead s = true →
      hasEpochToken false s = false →
      (convertLineTimestamps (String.mk (p ++ t ++ s))).toList =
        p ++ (if isEpoch (digitsToNat t) = true
              then (formatEpoch (digitsToNat t)).toList else t) ++ s) := by
  have hid : ∀ l : List Char, hasEpochToken false l = false →
      (convertLineTimestamps (String.mk l)).toList = l := by
    intro l h
    show convertGo false l = l
    exact convertGo_id l.length l le_rfl false h
  refine ⟨hid, convertLineTimestamps_split, ?_⟩
  intro p t s hp0 hp ht h10 h13 hs hs0
  rw [convertLineTimestamps_split p t s hp ht h10 h13 hs, hid p hp0, hid s hs0]

/-- C2 witness: the token-free line `"log start: 123, 12345678901234;"`
(a 3-digit run and a 14-digit run, neither a 10-13 digit token) is
returned unchanged, and in `"ts=1700000000;x"` the standalone token
`1700000000` (14 Nov 2023 22:13:20 UTC) is replaced while `"ts="` and
`";x"` are kept character for character. -/
theorem convertLineTimestamps_replaces_standalone_epoch_tokens_witness :
    (convertLineTimestamps (String.mk "log start: 123, 12345678901234;".toList)).toList
        = "log start: 123, 12345678901234;".toList ∧
    (convertLineTimestamps (String.mk ("ts=".toList ++ "1700000000".toList ++ ";x".toList))).toList
        = "ts=".toList
          ++ (if isEpoch (digitsToNat "1700000000".toList) = true
              then (formatEpoch (digitsToNat "1700000000".toList)).toList
              else "1700000000".toList)
          ++ ";x".toList :=
  ⟨convertLineTimestamps_replaces_standalone_epoch_tokens.1 _ (by decide),
   convertLineTimestamps_replaces_standalone_epoch_tokens.2.2 _ _ _
     (by decide) (by decide) (by decide) (by decide) (by decide) (by decide) (by decide)⟩

/-- C9: each log-context operation changes only its own part of the
state: `startLogging`/`stopLogging` set the flag and keep the list,
`appendLog` appends exactly one entry at the end keeping the existing
entries, their order and the flag, `clearLogs` empties the list and
keeps the flag. -/
theorem logContext_frame_conditions (s : LogState) (ts data : String) :
    (startLogging s).isLogging = true ∧ (startLogging s).logData = s.logData ∧
    (stopLogging s).isLogging = false ∧ (stopLogging s).logData = s.logData ∧
    (appendLog s ts data).logData = s.logData ++ [⟨ts, data⟩] ∧
    (appendLog s ts data).isLogging = s.isLogging ∧
    (clearLogs s).logData = [] ∧ (clearLogs s).isLogging = s.isLogging :=
  ⟨rfl, rfl, rfl, rfl, rfl, rfl, rfl, rfl⟩

/-- C3: the code appends a log entry on device data even while logging
is inactive: in the reachable state `{isLogging := false, logData := []}`
(the initial state), arrival of a device payload grows the log list,
because the `onDataReceived` handler calls `appendLog` without
consulting the logging flag. -/
theorem dataReceived_appends_even_when_not_logging :
    logReachable ⟨false, []⟩ ∧
    (⟨false, []⟩ : LogState).isLogging = false ∧
    (logStep ⟨false, []⟩ (.dataReceived "2024-01-01T00:00:00.000Z" "D:1700000000,5,7#")).logData
      = [⟨"2024-01-01T00:00:00.000Z", "D:1700000000,5,7#"⟩] :=
  ⟨⟨[], rfl⟩, rfl, rfl⟩

lemma isDummyName_eq_false_iff (d : BTDevice) :
    isDummyName d = false ↔
      ∀ b ∈ dummyNames, ∀ n, d.name = some n → strIncludes n.toLower b.toLower = false := by
  unfold isDummyName
  rw [List.any_eq_false]
  constructor
  · intro h b hb n hn
    have hd := h b hb
    rw [hn] at hd
    simpa using hd
  · intro h b hb
    cases hn : d.name with
    | none => simp
    | some n => simpa using h b hb n hn

lemma isGenericAddress_eq_false_iff (d : BTDevice) :
    isGenericAddress d = false ↔
      ∀ a ∈ genericAddressParts, strIncludes d.address a = false := by
  unfold isGenericAddress
  constructor
  · intro h a ha
    rcases Bool.and_eq_false_iff.mp h with hempty | hany
    · have hmt : d.address = "" := by
        have : d.address.isEmpty = true := by
          cases he : d.address.isEmpty
          · rw [he] at hempty
            simp at hempty
          · rfl
        exact (String.isEmpty_iff d.address).mp this
      rw [hmt]
      revert ha
      simp only [genericAddressParts, List.mem_cons, List.not_mem_nil, or_false]
      rintro (rfl | rfl | rfl | rfl) <;> decide
    · rw [List.any_eq_false] at hany
      simpa using hany a ha
  · intro h
    apply Bool.and_eq_false_iff.mpr
    right
    rw [List.any_eq_false]
    intro a ha
    simp [h a ha]

/-- C4: `fetchPairedDevices` keeps a system device if and only if it is
bonded, its name (when present) contains none of the generic block-list
names as a case-insensitive substring, and its address contains none of
the generic address fragments. -/
theorem fetchPairedDevices_keeps_iff (ds : List BTDevice) (d : BTDevice) :
    d ∈ filterPairedDevices ds ↔
      d ∈ ds ∧ d.bonded = true
        ∧ (∀ b ∈ dummyNames, ∀ n, d.name = some n → strIncludes n.toLower b.toLower = false)
        ∧ (∀ a ∈ genericAddressParts, strIncludes d.address a = false) := by
  rw [filterPairedDevices, List.mem_filter]
  have hk : keepPairedDevice d = true ↔
      (d.bonded = true ∧ isDummyName d = false ∧ isGenericAddress d = false) := by
    unfold keepPairedDevice
    rcases d.bonded with _ | _ <;> rcases hd : isDummyName d with _ | _ <;>
      rcases hg : isGenericAddress d with _ | _ <;> simp
  rw [hk, isDummyName_eq_false_iff, isGenericAddress_eq_false_iff]

/-- C5 counterexample: the `getBondedDevices` awaited during app launch
(line 96 of `MainScreen.tsx`) is raced against no timeout, so its
settle time is unbounded: with the platform call taking an hour, the
await takes an hour, far beyond the claimed 10-30 second bound. -/
theorem bluetoothTimeouts_counterexample :
    (⟨"MainScreen.initializeApp.getBondedDevices", none⟩ : BTCall) ∈ bluetoothCallSites ∧
    raceSettleTime none 3600000 = 3600000 ∧ ¬(3600000 ≤ 30000) := by
  refine ⟨?_, rfl, by decide⟩
  simp [bluetoothCallSites]

/-- C5 amended: the four raced calls carry timeouts of 10 s (bonded
fetch in `fetchPairedDevices`), 15 s (pairing), 20 s (connecting) and
30 s (discovery in `scanForDevices`), each within the 10-30 s range and
bounding the settle time; every other awaited platform Bluetooth call
carries no timeout. -/
theorem bluetoothTimeouts_amended :
    ((⟨"MainScreen.fetchPairedDevices.getBondedDevices", some 10000⟩ : BTCall) ∈ bluetoothCallSites
      ∧ ∀ d : Nat, raceSettleTime (some 10000) d ≤ 10000) ∧
    ((⟨"MainScreen.connectToDevice.pairDevice", some 15000⟩ : BTCall) ∈ bluetoothCallSites
      ∧ ∀ d : Nat, raceSettleTime (some 15000) d ≤ 15000) ∧
    ((⟨"MainScreen.connectToDevice.connect", some 20000⟩ : BTCall) ∈ bluetoothCallSites
      ∧ ∀ d : Nat, raceSettleTime (some 20000) d ≤ 20000) ∧
    ((⟨"MainScreen.scanForDevices.startDiscovery", some 30000⟩ : BTCall) ∈ bluetoothCallSites
      ∧ ∀ d : Nat, raceSettleTime (some 30000) d ≤ 30000) ∧
    (∀ c ∈ bluetoothCallSites,
      c.timeoutMs.all (fun t => 10000 ≤ t && t ≤ 30000) = true) := by
  refine ⟨⟨by simp [bluetoothCallSites], fun d => Nat.min_le_right d 10000⟩,
    ⟨by simp [bluetoothCallSites], fun d => Nat.min_le_right d 15000⟩,
    ⟨by simp [bluetoothCallSites], fun d => Nat.min_le_right d 20000⟩,
    ⟨by simp [bluetoothCallSites], fun d => Nat.min_le_right d 30000⟩,
    by decide⟩

/-- `connectToDevice` calls `device.connect()` at most once. -/
lemma connectToDevice_connectCalls_le_one (cenv : ConnectEnv) (device : BTDevice) :
    (connectToDevice cenv device).connectCalls ≤ 1 := by
  unfold connectToDevice connectAttempt
  cases cenv.permissionsGranted
  · simp
  · cases device.bonded
    · cases cenv.pairResult with
      | none => simp
      | some pb =>
          cases pb
          · simp
          · cases cenv.connectResult with
            | none => simp
            | some cb => cases cb <;> simp
    · cases cenv.connectResult with
      | none => simp
      | some cb => cases cb <;> simp

/-- With permissions granted and a bonded device, `connectToDevice`
calls `device.connect()` exactly once, whatever its outcome. -/
lemma connectToDevice_bonded_connectCalls (cenv : ConnectEnv) (device : BTDevice)
    (hperm : cenv.permissionsGranted = true) (hbond : device.bonded = true) :
    (connectToDevice cenv device).connectCalls = 1 := by
  unfold connectToDevice connectAttempt
  rw [hperm, hbond]
  cases cenv.connectResult with
  | none => simp
  | some cb => cases cb <;> simp

/-- C6: with permissions granted, the launch flow always reaches the
ready state, makes at most one connection attempt, makes exactly one
when the stored last address matches a bonded device of the bond list,
and none when there is no match — whatever the attempt's outcome, with
no retry. -/
theorem initializeApp_single_reconnect (env : InitEnv)
    (hperm : env.permissionsGranted = true) :
    (initializeApp env).isAppReady = true ∧
    (initializeApp env).connectCalls ≤ 1 ∧
    (∀ device, lastDeviceLookup env = some device → device.bonded = true →
      (initializeApp env).connectCalls = 1) ∧
    (lastDeviceLookup env = none → (initializeApp env).connectCalls = 0) := by
  refine ⟨?_, ?_, ?_, ?_⟩
  · unfold initializeApp
    rw [hperm]
    cases lastDeviceLookup env <;> simp
  · unfold initializeApp
    rw [hperm]
    simp only [if_true]
    cases hlook : lastDeviceLookup env with
    | none => simp
    | some device => simpa using connectToDevice_connectCalls_le_one _ device
  · intro device hdev hbond
    unfold initializeApp
    rw [hperm, hdev]
    simpa using connectToDevice_bonded_connectCalls _ device rfl hbond
  · intro hnone
    unfold initializeApp
    rw [hperm, hnone]
    rfl

/-- C6 witness: a stored address matching a bonded device whose
connection attempt rejects — one attempt, still ready. -/
theorem initializeApp_single_reconnect_witness :
    (initializeApp ⟨true, some "AA:BB:CC:11:22:33",
        [⟨some "GasSensor", "AA:BB:CC:11:22:33", true⟩], some true, none⟩).isAppReady = true ∧
    (initializeApp ⟨true, some "AA:BB:CC:11:22:33",
        [⟨some "GasSensor", "AA:BB:CC:11:22:33", true⟩], some true, none⟩).connectCalls ≤ 1 ∧
    (∀ device, lastDeviceLookup ⟨true, some "AA:BB:CC:11:22:33",
        [⟨some "GasSensor", "AA:BB:CC:11:22:33", true⟩], some true, none⟩ = some device →
      device.bonded = true →
      (initializeApp ⟨true, some "AA:BB:CC:11:22:33",
        [⟨some "GasSensor", "AA:BB:CC:11:22:33", true⟩], some true, none⟩).connectCalls = 1) ∧
    (lastDeviceLookup ⟨true, some "AA:BB:CC:11:22:33",
        [⟨some "GasSensor", "AA:BB:CC:11:22:33", true⟩], some true, none⟩ = none →
      (initializeApp ⟨true, some "AA:BB:CC:11:22:33",
        [⟨some "GasSensor", "AA:BB:CC:11:22:33", true⟩], some true, none⟩).connectCalls = 0) :=
  initializeApp_single_reconnect _ rfl

/-- C7: exporting with an empty log list only raises the "No Data"
alert — no workbook is generated and no file is written; with a
non-empty list the workbook is generated from the captured entries, and
once the platform save dialog resolves, an `.xlsx` file holding those
rows is written. -/
theorem exportToExcel_empty_guard (tz : Int) (nowIso : String) (env : ExportEnv)
    (logs : List LogEntry) :
    exportToExcel tz nowIso env [] =
      ⟨[("No Data", "No log data to export.")], [], none, none, none⟩ ∧
    (logs ≠ [] → (exportToExcel tz nowIso env logs).workbook = some (excelData tz logs)) ∧
    (logs ≠ [] → env.platformAndroid = true → ∀ uri, env.safResult = .ok uri →
      (exportToExcel tz nowIso env logs).savedFile
          = some (xlsxFileName nowIso, excelData tz logs) ∧
      (exportToExcel tz nowIso env logs).savedUri = some uri) ∧
    (∃ base, xlsxFileName nowIso = base ++ ".xlsx") := by
  refine ⟨rfl, ?_, ?_, ?_⟩
  · intro hne
    unfold exportToExcel
    rw [if_neg (by simpa [List.isEmpty_iff] using hne)]
    cases env.platformAndroid <;> cases env.safResult <;> cases env.iosWriteOk <;> rfl
  · intro hne hplat uri hsaf
    unfold exportToExcel
    rw [if_neg (by simpa [List.isEmpty_iff] using hne), hplat, hsaf]
    exact ⟨rfl, rfl⟩
  · exact ⟨_, rfl⟩

/-- C7 witness: one captured entry, Android, the save dialog resolving
with a URI — workbook generated and the file saved. -/
theorem exportToExcel_empty_guard_witness :
    exportToExcel 0 "2024-01-02T03:04:05.678Z" ⟨true, .ok "content://doc/7", true⟩ [] =
      ⟨[("No Data", "No log data to export.")], [], none, none, none⟩ ∧
    ([⟨"t", "D:1700000000,5,7#"⟩] ≠ ([] : List LogEntry) →
      (exportToExcel 0 "2024-01-02T03:04:05.678Z" ⟨true, .ok "content://doc/7", true⟩
          [⟨"t", "D:1700000000,5,7#"⟩]).workbook
        = some (excelData 0 [⟨"t", "D:1700000000,5,7#"⟩])) ∧
    ([⟨"t", "D:1700000000,5,7#"⟩] ≠ ([] : List LogEntry) →
      (⟨true, .ok "content://doc/7", true⟩ : ExportEnv).platformAndroid = true →
      ∀ uri, (⟨true, .ok "content://doc/7", true⟩ : ExportEnv).safResult = .ok uri →
      (exportToExcel 0 "2024-01-02T03:04:05.678Z" ⟨true, .ok "content://doc/7", true⟩
          [⟨"t", "D:1700000000,5,7#"⟩]).savedFile
          = some (xlsxFileName "2024-01-02T03:04:05.678Z",
                  excelData 0 [⟨"t", "D:1700000000,5,7#"⟩]) ∧
      (exportToExcel 0 "2024-01-02T03:04:05.678Z" ⟨true, .ok "content://doc/7", true⟩
          [⟨"t", "D:1700000000,5,7#"⟩]).savedUri = some uri) ∧
    (∃ base, xlsxFileName "2024-01-02T03:04:05.678Z" = base ++ ".xlsx") :=
  exportToExcel_empty_guard 0 "2024-01-02T03:04:05.678Z" ⟨true, .ok "content://doc/7", true⟩
    [⟨"t", "D:1700000000,5,7#"⟩]

/-- C8 counterexample: with the dialog confirmed and a URI returned but
`contentResolver.openOutputStream` yielding `null`, the module resolves
the promise with the URI without writing any bytes (`out?.write` is
skipped), against the claim that resolution happens after the write. -/
theorem safModule_counterexample :
    (saveFileWithDialog initialSafState true "logs.xlsx" "QUJD" 1).1
        = ⟨some 1, some "logs.xlsx", some "QUJD"⟩ ∧
    onActivityResult ⟨some 1, some "logs.xlsx", some "QUJD"⟩ ⟨none, false⟩ 2025 RESULT_OK
        (some ⟨some "content://doc/1"⟩)
      = (initialSafState, [.settle 1 (.resolve "content://doc/1")]) :=
  ⟨rfl, rfl⟩

/-- C8 amended: `saveFileWithDialog` rejects `NO_ACTIVITY` without
touching state when there is no activity, and otherwise stores the
pending fields and opens the dialog.  On the dialog result the pending
promise is settled exactly once — resolved with the chosen URI after
writing the decoded bytes when the output stream opens (a null stream
resolves without writing), `WRITE_ERROR` when the try block throws,
`NO_URI` when the Intent carries no URI, `CANCELLED` when the result
code is not OK or no Intent is returned — the fields are cleared, and a
later result settles nothing. -/
theorem safModule_amended (st : SafState) (env : SafWriteEnv)
    (fileName b64 uri msg : String) (pid requestCode : Nat)
    (data : Option SafIntent) (resultCode : Int) :
    saveFileWithDialog st false fileName b64 pid
        = (st, [.settle pid (.reject "NO_ACTIVITY" "No current activity")]) ∧
    saveFileWithDialog st true fileName b64 pid
        = (⟨some pid, some fileName, some b64⟩, [.startDialog fileName]) ∧
    onActivityResult ⟨some pid, some fileName, some b64⟩ ⟨none, true⟩ 2025 RESULT_OK
        (some ⟨some uri⟩)
        = (initialSafState, [.write uri (base64Decode b64), .settle pid (.resolve uri)]) ∧
    onActivityResult ⟨some pid, some fileName, some b64⟩ ⟨some msg, env.streamAvailable⟩ 2025
        RESULT_OK (some ⟨some uri⟩)
        = (initialSafState, [.settle pid (.reject "WRITE_ERROR" msg)]) ∧
    onActivityResult ⟨some pid, some fileName, some b64⟩ ⟨none, false⟩ 2025 RESULT_OK
        (some ⟨some uri⟩)
        = (initialSafState, [.settle pid (.resolve uri)]) ∧
    onActivityResult ⟨some pid, some fileName, some b64⟩ env 2025 RESULT_OK (some ⟨none⟩)
        = (initialSafState, [.settle pid (.reject "NO_URI" "No URI returned")]) ∧
    (resultCode ≠ RESULT_OK →
      onActivityResult ⟨some pid, some fileName, some b64⟩ env 2025 resultCode data
        = (initialSafState, [.settle pid (.reject "CANCELLED" "User cancelled")])) ∧
    onActivityResult ⟨some pid, some fileName, some b64⟩ env 2025 resultCode none
        = (initialSafState, [.settle pid (.reject "CANCELLED" "User cancelled")]) ∧
    ((onActivityResult ⟨some pid, some fileName, some b64⟩ env 2025 resultCode data).2.countP
        isSettleEffect = 1) ∧
    (onActivityResult ⟨some pid, some fileName, some b64⟩ env 2025 resultCode data).1
        = initialSafState ∧
    onActivityResult initialSafState env 2025 resultCode data = (initialSafState, []) ∧
    (requestCode ≠ 2025 →
      onActivityResult st env requestCode resultCode data = (st, [])) := by
  refine ⟨rfl, rfl, rfl, rfl, rfl, rfl, ?_, ?_, ?_, ?_, rfl, ?_⟩
  · intro h
    unfold onActivityResult
    rw [if_pos rfl]
    cases data with
    | none => rfl
    | some intent =>
        show (_, if resultCode = RESULT_OK then _ else _) = _
        rw [if_neg h]
  · unfold onActivityResult
    rw [if_pos rfl]
  · cases data with
    | none => rfl
    | some intent =>
        by_cases hrc : resultCode = RESULT_OK
        · cases intent with
          | mk u =>
              cases u with
              | none =>
                  simp [onActivityResult, hrc, isSettleEffect,
                    List.countP_cons, List.countP_nil]
              | some theUri =>
                  cases henv : env.tryThrows with
                  | some m =>
                      simp [onActivityResult, hrc, henv, isSettleEffect,
                        List.countP_cons, List.countP_nil]
                  | none =>
                      cases hstr : env.streamAvailable <;>
                        simp [onActivityResult, hrc, henv, hstr, isSettleEffect,
                          List.countP_cons, List.countP_nil]
        · simp [onActivityResult, hrc, isSettleEffect,
            List.countP_cons, List.countP_nil]
  · cases data with
    | none => rfl
    | some intent =>
        by_cases hrc : resultCode = RESULT_OK
        · cases intent with
          | mk u =>
              cases u with
              | none => simp [onActivityResult, hrc]
              | some theUri =>
                  cases henv : env.tryThrows with
                  | some m => simp [onActivityResult, hrc, henv]
                  | none =>
                      cases hstr : env.streamAvailable <;>
                        simp [onActivityResult, hrc, henv, hstr]
        · simp [onActivityResult, hrc]
  · intro h
    unfold onActivityResult
    rw [if_neg h]

lemma exportRowsAux_length (tz : Int) : ∀ (l : List LogEntry) (k : Nat),
    (exportRowsAux tz k l).length = l.length := by
  intro l
  induction l with
  | nil => intro k; rfl
  | cons e es ih =>
      intro k
      simp only [exportRowsAux, List.length_cons, ih (k + 1)]

lemma exportRow_head (tz : Int) (k : Nat) (d : String) :
    (exportRow tz k d).head? = some (toString k) := by
  cases h : ppmSearch (stripDLine d).toList with
  | none =>
      simp only [String.toList] at h
      simp [exportRow, h]
  | some g =>
      obtain ⟨g1, g2, g3⟩ := g
      simp only [String.toList] at h
      simp [exportRow, h]

lemma exportRowsAux_serials (tz : Int) : ∀ (l : List LogEntry) (k : Nat),
    (exportRowsAux tz k l).map List.head?
      = (List.range l.length).map (fun i => some (toString (k + i))) := by
  intro l
  induction l with
  | nil => intro k; rfl
  | cons e es ih =>
      intro k
      simp only [exportRowsAux, List.map_cons, exportRow_head, List.length_cons,
        List.range_succ_eq_map, List.map_map]
      congr 1
      rw [ih (k + 1)]
      apply List.map_congr_left
      intro i _
      simp only [Function.comp_apply, Nat.succ_eq_add_one]
      have h1 : k + 1 + i = k + (i + 1) := by omega
      rw [h1]

/-- C1: entries whose data line is not prefixed `D:` contribute no row
(the sheet built from the log list equals the sheet built from its
`D:`-filtered sublist), and a line on which the single extraction
pattern `/(\d{10,13}),(\d+),(\d+)#/` matches yields the row whose date
and time cells are the locale-formatted conversion of the matched epoch
seconds and whose PPM cells are the second and third groups. -/
theorem exportToExcel_parses_D_lines (tz : Int) (logs : List LogEntry) :
    excelData tz logs = excelData tz (logs.filter fun e => isDLine e.data) ∧
    (∀ (serial : Nat) (data g1 g2 g3 : String),
      ppmSearch (stripDLine data).toList = some (g1, g2, g3) →
      exportRow tz serial data
        = [toString serial, dateStrEnUS tz (digitsToNat g1.toList),
           timeStrEnUS tz (digitsToNat g1.toList), g2, g3]) := by
  constructor
  · unfold excelData
    rw [List.filter_filter]
    have hf : List.filter (fun a => isDLine a.data && isDLine a.data) logs
        = List.filter (fun e => isDLine e.data) logs := by
      apply List.filter_congr
      intro e _
      rw [Bool.and_self]
    rw [hf]
  · intro serial data g1 g2 g3 h
    simp only [String.toList] at h
    simp [exportRow, h]

/-- C1 witness: a concrete captured list — the non-`D:` entry
contributes no row, and on a matching line the groups land in the date,
time and PPM cells. -/
theorem exportToExcel_parses_D_lines_witness :
    excelData 0 [⟨"t1", "D:1700000000,42,17#P:1700,0;"⟩, ⟨"t2", "hello"⟩]
      = excelData 0 ([⟨"t1", "D:1700000000,42,17#P:1700,0;"⟩, ⟨"t2", "hello"⟩].filter
          fun e => isDLine e.data) ∧
    (∀ (serial : Nat) (data g1 g2 g3 : String),
      ppmSearch (stripDLine data).toList = some (g1, g2, g3) →
      exportRow 0 serial data
        = [toString serial, dateStrEnUS 0 (digitsToNat g1.toList),
           timeStrEnUS 0 (digitsToNat g1.toList), g2, g3]) :=
  exportToExcel_parses_D_lines 0 [⟨"t1", "D:1700000000,42,17#P:1700,0;"⟩, ⟨"t2", "hello"⟩]

/-- C10: the worksheet starts with the fixed header row, has exactly
one data row per captured entry matching `/^\s*D:/i`, numbers them
`"1"`, `"2"`, ... in log order, and a `D:` entry on which the PPM
pattern finds no match still yields a row whose date, time and PPM
cells are empty strings. -/
theorem excelData_worksheet_shape (tz : Int) (logs : List LogEntry) :
    (excelData tz logs).head?
        = some ["Serial Number", "Date", "Time", "Outlet PPM", "Inlet PPM"] ∧
    (excelData tz logs).length = (logs.filter fun e => isDLine e.data).length + 1 ∧
    (excelData tz logs).tail.map List.head?
        = (List.range (logs.filter fun e => isDLine e.data).length).map
            (fun i => some (toString (i + 1))) ∧
    (∀ (serial : Nat) (data : String), isDLine data = true →
      ppmSearch (stripDLine data).toList = none →
      exportRow tz serial data = [toString serial, "", "", "", ""]) := by
  refine ⟨rfl, ?_, ?_, ?_⟩
  · simp only [excelData, List.length_cons, exportRowsAux_length]
  · show (exportRowsAux tz 1 (logs.filter fun e => isDLine e.data)).map List.head? = _
    rw [exportRowsAux_serials]
    apply List.map_congr_left
    intro i _
    have h1 : 1 + i = i + 1 := by omega
    rw [h1]
  · intro serial data _ hnone
    simp only [String.toList] at hnone
    simp [exportRow, hnone]

end BCA
